import Mathlib

/-!
Verification development for the Connection & Credential Lifecycle Manager
(`ConnectionService` in the sources): credential parsing, connection store
operations, and the OAuth2 refresh state machine with its process-local
deduplication registry.

The embedding follows the TypeScript source directly.  Asynchronous code is
embedded as an interleaving model: each `async` function is cut into the
atomic segments between its `await` points, and a schedule (a list of task
identifiers) picks which suspended task runs next; this is exactly the
single-threaded cooperative semantics of the JavaScript event loop.
Machine-level details that the source delegates to the host (the clock
`Date.now()`, `Number.parseInt`, the `Date` constructor) are modelled
explicitly; `Date` values carry an `invalid` case mirroring JavaScript's
Invalid Date.
-/

namespace Nango

/-- Decidable equality for `Except` results, so that runs of the models below
can be evaluated inside closed theorems. -/
instance exceptDecEq {ε α : Type} [DecidableEq ε] [DecidableEq α] :
    DecidableEq (Except ε α) := fun a b =>
  match a, b with
  | Except.ok x, Except.ok y =>
    if h : x = y then Decidable.isTrue (by rw [h])
    else Decidable.isFalse (fun hh => by cases hh; exact h rfl)
  | Except.error x, Except.error y =>
    if h : x = y then Decidable.isTrue (by rw [h])
    else Decidable.isFalse (fun hh => by cases hh; exact h rfl)
  | Except.ok _, Except.error _ => Decidable.isFalse (fun hh => by cases hh)
  | Except.error _, Except.ok _ => Decidable.isFalse (fun hh => by cases hh)

/-- Date values as produced by the JavaScript `Date` machinery: either a valid
absolute instant in epoch milliseconds, or JavaScript's Invalid Date (obtained
for instance from `new Date(NaN)`). -/
inductive JsDate where
  | valid (ms : Int)
  | invalid
deriving DecidableEq, Repr

/-- Raw credential input to `parseRawCredentials`: an untyped object; the
parser only ever reads these six string-valued fields.  `none` models an
absent field (`undefined`). -/
structure RawCreds where
  access_token : Option String := none
  refresh_token : Option String := none
  expires_at : Option String := none
  expires_in : Option String := none
  oauth_token : Option String := none
  oauth_token_secret : Option String := none
deriving DecidableEq, Repr

/-- JavaScript truthiness of a possibly-absent string field: `undefined` and
the empty string are falsy, every other string is truthy. -/
def truthyS : Option String → Bool
  | none => false
  | some s => !s.isEmpty

/-- Decimal value of a digit character. -/
def digitVal (c : Char) : Option Nat :=
  if c.toNat ≥ 48 ∧ c.toNat ≤ 57 then some (c.toNat - 48) else none

/-- Accumulating decimal evaluation of a character list. -/
def digitsVal : List Char → Option Nat → Option Nat
  | [], acc => acc
  | c :: cs, acc =>
    match digitVal c, acc with
    | some d, some a => digitsVal cs (some (a * 10 + d))
    | _, _ => none

/-- Model of the host primitive `Number.parseInt(s, 10)` restricted to plain
decimal digit strings: a nonempty all-digit string parses to its value, any
other string yields NaN, modelled as `none`. -/
def parseIntJs (s : String) : Option Int :=
  match s.data with
  | [] => none
  | l => (digitsVal l (some 0)).map Int.ofNat

/-- Auth modes of the credential tagged union (`AuthModes` in `models/Auth.js`,
a file outside the excerpt; the spec lists exactly these four variants). -/
inductive AuthModes where
  | OAuth2
  | OAuth1
  | Basic
  | ApiKey
deriving DecidableEq, Repr

/-- Errors raised by the connection service (`NangoError` instances).  The
unsupported-auth-mode error carries the raw payload, mirroring the source
interpolating `JSON.stringify(rawCreds)` into the error it throws. -/
inductive NangoErr where
  | missingConnection
  | missingProviderConfig
  | missingEnvironment
  | unknownConnection (connectionId providerConfigKey : String)
  | incompleteRawCredentials
  | unsupportedAuthMode (raw : RawCreds)
  | connectionAlreadyExists
deriving DecidableEq, Repr

/-- OAuth2 credential variant (`OAuth2Credentials`). -/
structure OAuth2Creds where
  access_token : String
  refresh_token : Option String := none
  expires_at : Option JsDate := none
  raw : RawCreds := {}
deriving DecidableEq, Repr

/-- OAuth1 credential variant (`OAuth1Credentials`). -/
structure OAuth1Creds where
  oauth_token : String
  oauth_token_secret : String
  raw : RawCreds := {}
deriving DecidableEq, Repr

/-- Tagged union of credential variants (`AuthCredentials`). -/
inductive AuthCredentials where
  | oauth2 (c : OAuth2Creds)
  | oauth1 (c : OAuth1Creds)
  | apiKey (key : String)
  | basic (username password : String)
deriving DecidableEq, Repr

/-- Expiry resolution of the OAuth2 branch of `parseRawCredentials`
(lines 402-408): a truthy `expires_at` is parsed as an absolute timestamp by
`parseTokenExpirationDate` (passed in as `pt`, since `utils/utils.js` is
outside the excerpt), otherwise a truthy `expires_in` is converted to an
absolute instant at the current clock (`new Date(Date.now() + parseInt(v) *
1000)`, an Invalid Date when `parseInt` yields NaN), otherwise no expiry. -/
def parseOAuth2ExpiresAt (pt : String → JsDate) (now : Int) (raw : RawCreds) :
    Option JsDate :=
  if truthyS raw.expires_at then
    some (pt (raw.expires_at.getD ""))
  else if truthyS raw.expires_in then
    some (match parseIntJs (raw.expires_in.getD "") with
          | some n => JsDate.valid (now + n * 1000)
          | none => JsDate.invalid)
  else
    none

/-- Embedding of `ConnectionService.parseRawCredentials` (lines 393-436).
`pt` is `parseTokenExpirationDate` from `utils/utils.js` (outside the excerpt)
and `now` is the host clock `Date.now()`. -/
def parseRawCredentials (pt : String → JsDate) (now : Int) (raw : RawCreds)
    (authMode : AuthModes) : Except NangoErr AuthCredentials :=
  match authMode with
  | AuthModes.OAuth2 =>
    if !truthyS raw.access_token then
      Except.error NangoErr.incompleteRawCredentials
    else
      Except.ok (AuthCredentials.oauth2
        { access_token := raw.access_token.getD ""
          refresh_token := raw.refresh_token
          expires_at := parseOAuth2ExpiresAt pt now raw
          raw := raw })
  | AuthModes.OAuth1 =>
    if !truthyS raw.oauth_token || !truthyS raw.oauth_token_secret then
      Except.error NangoErr.incompleteRawCredentials
    else
      Except.ok (AuthCredentials.oauth1
        { oauth_token := raw.oauth_token.getD ""
          oauth_token_secret := raw.oauth_token_secret.getD ""
          raw := raw })
  | _ => Except.error (NangoErr.unsupportedAuthMode raw)

/-- Modelled from the spec: `isTokenExpired` is imported from `utils/utils.js`,
which is outside the excerpt.  The spec defines staleness as
`now + buffer >= expires_at` with the buffer in seconds and timestamps in
epoch milliseconds; an Invalid Date never compares as expired (every NaN
comparison is false in JavaScript). -/
def isTokenExpiredJs (expiresAt : JsDate) (bufferSeconds : Nat) (now : Int) : Bool :=
  match expiresAt with
  | JsDate.invalid => false
  | JsDate.valid e => decide (e ≤ now + bufferSeconds * 1000)

/-- Effective expiration buffer, embedding the JavaScript expression
`template.token_expiration_buffer || 15 * 60` (line 472): an absent buffer
falls back to 900 seconds, and so does an explicit `0`, since `0` is falsy. -/
def tokenExpirationBufferJs : Option Nat → Nat
  | none => 900
  | some 0 => 900
  | some b => b

/-- The refresh flag computed on lines 466-468:
`instantRefresh || (shouldIntrospectToken(provider) && await
introspectedTokenExpired(...))`.  The two provider-client calls live in
`clients/provider.client.js`, outside the excerpt, so their results are
taken as inputs. -/
def refreshFlag (instantRefresh shouldIntrospect introspectExpired : Bool) : Bool :=
  instantRefresh || (shouldIntrospect && introspectExpired)

/-- The guard of the refresh branch (lines 470-473):
`credentials.refresh_token && (refresh || (credentials.expires_at &&
isTokenExpired(credentials.expires_at, template.token_expiration_buffer ||
15 * 60)))`.  A `Date` object is always truthy, so the `credentials.expires_at
&&` test is presence of the field. -/
def refreshNeeded (refresh : Bool) (credentials : OAuth2Creds)
    (token_expiration_buffer : Option Nat) (now : Int) : Bool :=
  truthyS credentials.refresh_token &&
    (refresh ||
      (match credentials.expires_at with
       | some d => isTokenExpiredJs d (tokenExpirationBufferJs token_expiration_buffer) now
       | none => false))

/-!
## The connection store

Rows of the `_nango_connections` table.  Every store operation in the source
builds a `where` clause from the triple `(connection_id, provider_config_key,
environment_id)`; the encryption boundary (`encryptionManager`, outside the
excerpt) is elided, i.e. rows are modelled in decrypted form, which is
adequate because no claim below inspects ciphertext and the spec requires
`decrypt (encrypt c) = c`.
-/

/-- A persisted connection row (`Connection` / `StoredConnection`). -/
structure Connection where
  id : Nat
  connection_id : String
  provider_config_key : String
  environment_id : Nat
  credentials : AuthCredentials
  connection_config : List (String × String) := []
  metadata : List (String × String) := []
deriving DecidableEq, Repr

/-- The `where { connection_id, provider_config_key, environment_id }` clause
shared by `getConnection`, `updateConnection`, `deleteConnection`,
`checkIfConnectionExists` and the upsert conflict target. -/
def connMatches (connectionId providerConfigKey : String) (environment_id : Nat)
    (r : Connection) : Bool :=
  r.connection_id == connectionId && r.provider_config_key == providerConfigKey &&
    r.environment_id == environment_id

/-- Number of rows of the store matching a scoping triple. -/
def tripleCount (db : List Connection) (connectionId providerConfigKey : String)
    (environment_id : Nat) : Nat :=
  db.countP (fun r => connMatches connectionId providerConfigKey environment_id r)

/-- Embedding of `ConnectionService.checkIfConnectionExists` (lines 211-215):
select rows by the scoping triple and test for nonemptiness. -/
def checkIfConnectionExists (connection_id provider_config_key : String)
    (environment_id : Nat) (db : List Connection) : Bool :=
  db.any (fun r => connMatches connection_id provider_config_key environment_id r)

/-- The expiry normalization performed by `getConnection` on a decrypted row
(lines 245-253): OAuth2 credentials get `expires_at` re-parsed through
`parseTokenExpirationDate` when present and set to `undefined` otherwise.
Re-parsing an already-parsed absolute `Date` is the identity (the spec calls
this step a defensive re-parse tolerant of legacy storage formats). -/
def normalizeConnectionExpiry (conn : Connection) : Connection :=
  match conn.credentials with
  | AuthCredentials.oauth2 c =>
    { conn with
      credentials := AuthCredentials.oauth2
          ({ c with expires_at := (match c.expires_at with
                                   | some d => some d
                                   | none => none) }) }
  | _ => conn

/-- Embedding of `ConnectionService.getConnection` (lines 217-256): reject a
falsy `connectionId`, `providerConfigKey` or `environment_id` (the number `0`
is falsy), select rows by the scoping triple, fail with `unknown_connection`
when none matches, otherwise decrypt and normalize the first row.  The
environment name placed in the real error comes from `environmentService`
(an external collaborator) and is omitted from the modelled error payload. -/
def getConnection (db : List Connection) (connectionId providerConfigKey : String)
    (environment_id : Nat) : Except NangoErr Connection :=
  if connectionId.isEmpty then Except.error NangoErr.missingConnection
  else if providerConfigKey.isEmpty then Except.error NangoErr.missingProviderConfig
  else if environment_id == 0 then Except.error NangoErr.missingEnvironment
  else
    match (db.filter (fun r => connMatches connectionId providerConfigKey environment_id r)).head? with
    | none => Except.error (NangoErr.unknownConnection connectionId providerConfigKey)
    | some row => Except.ok (normalizeConnectionExpiry row)

/-- Embedding of `ConnectionService.upsertConnection` (lines 78-108): insert a
row, with `onConflict(['provider_config_key', 'connection_id',
'environment_id']).merge()` replacing every column of an existing row with the
same triple.  Returns the updated store and the affected row id (the source
returns the id list of the insert). -/
def upsertConnection (connectionId providerConfigKey : String)
    (parsedRawCredentials : AuthCredentials)
    (connectionConfig : List (String × String)) (environment_id : Nat)
    (metadata : List (String × String)) (db : List Connection) :
    List Connection × Nat :=
  match db.find? (fun r => connMatches connectionId providerConfigKey environment_id r) with
  | some row =>
    (db.map (fun r =>
       if connMatches connectionId providerConfigKey environment_id r then
         { r with credentials := parsedRawCredentials
                  connection_config := connectionConfig
                  metadata := metadata }
       else r),
     row.id)
  | none =>
    let newId := db.foldl (fun m r => max m r.id) 0 + 1
    ((db ++ [{ id := newId
               connection_id := connectionId
               provider_config_key := providerConfigKey
               environment_id := environment_id
               credentials := parsedRawCredentials
               connection_config := connectionConfig
               metadata := metadata }]),
     newId)

/-- Embedding of `ConnectionService.upsertApiConnection` (lines 110-138): like
`upsertConnection` but `encryptApiConnection` writes no metadata column, so a
conflict merge leaves the existing metadata in place. -/
def upsertApiConnection (connectionId providerConfigKey : String)
    (credentials : AuthCredentials) (connectionConfig : List (String × String))
    (environment_id : Nat) (db : List Connection) : List Connection × Nat :=
  match db.find? (fun r => connMatches connectionId providerConfigKey environment_id r) with
  | some row =>
    (db.map (fun r =>
       if connMatches connectionId providerConfigKey environment_id r then
         { r with credentials := credentials
                  connection_config := connectionConfig }
       else r),
     row.id)
  | none =>
    let newId := db.foldl (fun m r => max m r.id) 0 + 1
    ((db ++ [{ id := newId
               connection_id := connectionId
               provider_config_key := providerConfigKey
               environment_id := environment_id
               credentials := credentials
               connection_config := connectionConfig
               metadata := [] }]),
     newId)

/-- Embedding of `ConnectionService.importOAuthConnection` (lines 140-167): it
destructures `connection_config` and `metadata` out of the imported
credentials and calls `upsertConnection` directly, with no prior-existence
check; it cannot fail.  The sync-client notification is an external
collaborator call and is not modelled. -/
def importOAuthConnection (connection_id provider_config_key : String)
    (environmentId : Nat) (parsedRawCredentials : AuthCredentials)
    (connection_config metadata : List (String × String)) (db : List Connection) :
    Except NangoErr (List Connection × Nat) :=
  Except.ok (upsertConnection connection_id provider_config_key parsedRawCredentials
    connection_config environmentId metadata db)

/-- Embedding of `ConnectionService.importApiAuthConnection` (lines 169-191):
`checkIfConnectionExists` first, throwing `connection_already_exists` when a
row with the triple is present, otherwise `upsertApiConnection` with an empty
`connectionConfig`. -/
def importApiAuthConnection (connection_id provider_config_key : String)
    (environmentId : Nat) (credentials : AuthCredentials) (db : List Connection) :
    Except NangoErr (List Connection × Nat) :=
  if checkIfConnectionExists connection_id provider_config_key environmentId db then
    Except.error NangoErr.connectionAlreadyExists
  else
    Except.ok (upsertApiConnection connection_id provider_config_key credentials []
      environmentId db)

/-- Observable external effects of `deleteConnection`, in the order the source
issues them. -/
inductive StoreEvent where
  | cancelSyncSchedule (connectionId : String)
  | rowDeleteIssued (connectionId providerConfigKey : String) (environment_id : Nat)
deriving DecidableEq, Repr

/-- Embedding of `ConnectionService.deleteConnection` (lines 314-324): first
`await deleteSyncScheduleForConnection(connection)` (the external
schedule-cancellation collaborator), then delete the rows matching
`(connection.connection_id, providerConfigKey, environment_id)`.  Returns the
ordered effect trace, the remaining store, and the deleted-row count that
`del()` reports. -/
def deleteConnection (connection : Connection) (providerConfigKey : String)
    (environment_id : Nat) (db : List Connection) :
    List StoreEvent × List Connection × Nat :=
  let events := [StoreEvent.cancelSyncSchedule connection.connection_id,
                 StoreEvent.rowDeleteIssued connection.connection_id providerConfigKey
                   environment_id]
  let remaining := db.filter
    (fun r => !connMatches connection.connection_id providerConfigKey environment_id r)
  (events, remaining, db.length - remaining.length)

/-!
## The refresh state machine

`refreshOauth2CredentialsIfNeeded` (lines 441-538) is an `async` method of a
module-level singleton service, so all concurrent callers share one
`runningCredentialsRefreshes` array.  Under the JavaScript event loop a task
runs uninterrupted between `await` points; the method therefore decomposes
into these atomic segments:

* caller segment 1 (lines 449-473 up to the first suspension): scan the
  registry; if a matching entry exists, return its promise (the caller then
  suspends awaiting it).  Otherwise, when `instantRefresh` is false and the
  provider is introspection-based, suspend at
  `await providerClient.introspectedTokenExpired(...)` (line 468).
* caller segment 2 (resumption after introspection): evaluate the staleness
  guard (lines 470-473) — note the registry is not re-checked here.
* starting a refresh (lines 474-533): the `Promise` executor starts the
  outbound token call synchronously and suspends inside it; back in the
  method, when an activity-log context is attached the method suspends at the
  log writes (lines 521-530) *before* pushing the registry entry (line 531);
  without one the push is reached in the same atomic segment.
* executor success continuation: assign `connection.credentials` and suspend
  at `await this.updateConnection(connection)` (line 487); once the write
  lands, remove every registry entry with this connection key and resolve the
  promise (lines 490-494).
* executor failure continuation: remove the registry entries (lines 497-499),
  suspend at the activity-log writes when a context is attached, and reject.

A schedule is a list of task identifiers; running a task that is not enabled
(still waiting on an unsettled promise, or nonexistent) is a stutter.  This
is a faithful shallow embedding of the cooperative single-threaded semantics:
any real execution corresponds to some schedule.
-/

/-- Per-caller inputs of one invocation of `refreshOauth2CredentialsIfNeeded`:
the identity of the connection object the caller fetched, its current
credentials, the `instantRefresh` argument and whether an activity-log context
(`activityLogId` with `logAction = token`) is attached. -/
structure CallerCfg where
  connectionId : String
  providerConfigKey : String
  environmentId : Nat
  creds : OAuth2Creds
  instantRefresh : Bool := false
  hasActivityLog : Bool := false
deriving Repr

/-- Provider-template inputs shared by the callers: whether
`shouldIntrospectToken` holds, the result the introspection call reports, and
the template expiration buffer. -/
structure ProviderCfg where
  shouldIntrospect : Bool := false
  introspectExpired : Bool := false
  token_expiration_buffer : Option Nat := none
deriving Repr

/-- Failure delivered by an outbound refresh attempt (the upstream token
endpoint or the provider-specific refresh client rejecting). -/
inductive RefreshErr where
  | refreshFailed (msg : String)
deriving DecidableEq, Repr

/-- A complete scenario: the concurrent callers, the provider template, the
clock, the outcome the outbound token call of caller `i`'s refresh would
deliver, and the initially persisted credentials per store row. -/
structure ModelCfg where
  callers : List CallerCfg
  provider : ProviderCfg := {}
  now : Int := 0
  refreshOutcome : Nat → Except RefreshErr OAuth2Creds
  store0 : String × String × Nat → OAuth2Creds

/-- Program counter of one caller of `refreshOauth2CredentialsIfNeeded`. -/
inductive CallerPC where
  | ready
  | introspectWait
  | logWaitStart
  | waiting (rid : Nat)
  | doneOk (c : OAuth2Creds)
  | doneErr (e : RefreshErr)
deriving DecidableEq, Repr

/-- Program counter of the promise executor of the refresh started by caller
`rid` (lines 474-513). -/
inductive ExecPC where
  | notStarted
  | outboundWait
  | persistWait (c : OAuth2Creds)
  | failLogWait (e : RefreshErr)
  | finished
deriving DecidableEq, Repr

/-- Observable events of a run, in emission order. -/
inductive REvent where
  | checkFound (caller rid : Nat)
  | outboundStart (rid : Nat)
  | persisted (rid : Nat) (environment_id : Nat) (c : OAuth2Creds)
  | entryRemoved (rid : Nat)
  | resolved (rid : Nat) (c : OAuth2Creds)
  | rejected (rid : Nat) (e : RefreshErr)
  | callerReturned (caller : Nat) (r : Except RefreshErr OAuth2Creds)
deriving DecidableEq, Repr

/-- Shared mutable state of the service plus the running tasks.  `registry` is
`runningCredentialsRefreshes` (an entry records the connection key and the
index of the caller whose refresh it belongs to), `cell i` the settlement of
the promise created by caller `i`, and `store` the persisted credentials per
`(connection_id, provider_config_key, environment_id)` row. -/
structure RState where
  registry : List ((String × String) × Nat)
  callerPC : Nat → CallerPC
  execPC : Nat → ExecPC
  cell : Nat → Option (Except RefreshErr OAuth2Creds)
  store : String × String × Nat → OAuth2Creds
  outbound : Nat
  events : List REvent

/-- Pointwise update of a task array. -/
def updFn {α : Type} (f : Nat → α) (i : Nat) (v : α) : Nat → α :=
  fun j => if j = i then v else f j

/-- Pointwise update of the persisted store at one row key (the effect of
`updateConnection`, lines 258-264: re-encrypt and write the columns of the row
matching the scoping triple). -/
def updFn3 {α : Type} (f : String × String × Nat → α) (k : String × String × Nat)
    (v : α) : String × String × Nat → α :=
  fun j => if j = k then v else f j

/-- Connection key of a caller, the shape the registry is keyed by — note it
contains no `environment_id`. -/
def keyOf (cc : CallerCfg) : String × String :=
  (cc.connectionId, cc.providerConfigKey)

/-- The registry scan of lines 455-460: the `for` loop overwrites
`runningRefresh` on every match, so the last matching entry wins. -/
def lastRunningRefresh (registry : List ((String × String) × Nat))
    (key : String × String) : Option Nat :=
  ((registry.filter (fun kv => kv.1 == key)).getLast?).map (fun kv => kv.2)

/-- Initial state: empty registry, all callers about to run, no refresh
started, store as configured. -/
def initState (cfg : ModelCfg) : RState :=
  { registry := []
    callerPC := fun _ => CallerPC.ready
    execPC := fun _ => ExecPC.notStarted
    cell := fun _ => none
    store := cfg.store0
    outbound := 0
    events := [] }

/-- Starting a refresh (lines 474-533): the outbound token call begins inside
the `Promise` executor, which immediately suspends; with an activity-log
context attached the method then suspends at the log writes *before* the
registry push of line 531, otherwise it pushes the entry and returns the
promise within the same atomic segment. -/
def startRefresh (cc : CallerCfg) (i : Nat) (s : RState) : RState :=
  let s1 : RState :=
    { s with outbound := s.outbound + 1
             execPC := updFn s.execPC i ExecPC.outboundWait
             events := s.events ++ [REvent.outboundStart i] }
  if cc.hasActivityLog then
    { s1 with callerPC := updFn s1.callerPC i CallerPC.logWaitStart }
  else
    { s1 with callerPC := updFn s1.callerPC i (CallerPC.waiting i)
              registry := s1.registry ++ [(keyOf cc, i)] }

/-- Evaluation of the staleness guard (lines 470-473) with the already
computed `refresh` flag: start a refresh when it holds, otherwise return the
stored credentials unchanged (line 537). -/
def decideRefresh (cfg : ModelCfg) (cc : CallerCfg) (i : Nat) (refresh : Bool)
    (s : RState) : RState :=
  if refreshNeeded refresh cc.creds cfg.provider.token_expiration_buffer cfg.now then
    startRefresh cc i s
  else
    { s with callerPC := updFn s.callerPC i (CallerPC.doneOk cc.creds)
             events := s.events ++ [REvent.callerReturned i (Except.ok cc.creds)] }

/-- One atomic segment of caller `i`.  `ready` is segment 1 (registry scan,
then either joining the running refresh, suspending at introspection, or
deciding); `introspectWait` is segment 2; `logWaitStart` is the resumption
after the pre-registration log writes (it performs the line-531 push);
`waiting` is the caller observing the settled promise it awaits. -/
def callerStep (cfg : ModelCfg) (i : Nat) (s : RState) : RState :=
  match cfg.callers.get? i with
  | none => s
  | some cc =>
    match s.callerPC i with
    | CallerPC.ready =>
      match lastRunningRefresh s.registry (keyOf cc) with
      | some rid =>
        { s with callerPC := updFn s.callerPC i (CallerPC.waiting rid)
                 events := s.events ++ [REvent.checkFound i rid] }
      | none =>
        if cc.instantRefresh then
          decideRefresh cfg cc i true s
        else if cfg.provider.shouldIntrospect then
          { s with callerPC := updFn s.callerPC i CallerPC.introspectWait }
        else
          decideRefresh cfg cc i false s
    | CallerPC.introspectWait =>
      decideRefresh cfg cc i cfg.provider.introspectExpired s
    | CallerPC.logWaitStart =>
      { s with callerPC := updFn s.callerPC i (CallerPC.waiting i)
               registry := s.registry ++ [(keyOf cc, i)] }
    | CallerPC.waiting rid =>
      match s.cell rid with
      | some (Except.ok c) =>
        { s with callerPC := updFn s.callerPC i (CallerPC.doneOk c)
                 events := s.events ++ [REvent.callerReturned i (Except.ok c)] }
      | some (Except.error e) =>
        { s with callerPC := updFn s.callerPC i (CallerPC.doneErr e)
                 events := s.events ++ [REvent.callerReturned i (Except.error e)] }
      | none => s
    | _ => s

/-- One atomic segment of the promise executor of caller `i`'s refresh.
`outboundWait` fires when the outbound token call settles: on success the new
credentials are assigned and persisted (`await this.updateConnection`, line
487) and the executor suspends there; on failure the registry entries for the
connection key are removed (lines 497-499) and, with an activity-log context,
the executor suspends at the log writes before rejecting.  `persistWait`
fires when the store write lands: remove the registry entries (lines 490-492)
and resolve (line 494). -/
def execStep (cfg : ModelCfg) (i : Nat) (s : RState) : RState :=
  match cfg.callers.get? i with
  | none => s
  | some cc =>
    match s.execPC i with
    | ExecPC.outboundWait =>
      match cfg.refreshOutcome i with
      | Except.ok c =>
        { s with store := updFn3 s.store (cc.connectionId, cc.providerConfigKey, cc.environmentId) c
                 execPC := updFn s.execPC i (ExecPC.persistWait c)
                 events := s.events ++ [REvent.persisted i cc.environmentId c] }
      | Except.error e =>
        let s1 : RState :=
          { s with registry := s.registry.filter (fun kv => !(kv.1 == keyOf cc))
                   events := s.events ++ [REvent.entryRemoved i] }
        if cc.hasActivityLog then
          { s1 with execPC := updFn s1.execPC i (ExecPC.failLogWait e) }
        else
          { s1 with execPC := updFn s1.execPC i ExecPC.finished
                    cell := updFn s1.cell i (some (Except.error e))
                    events := s1.events ++ [REvent.rejected i e] }
    | ExecPC.persistWait c =>
      { s with registry := s.registry.filter (fun kv => !(kv.1 == keyOf cc))
               execPC := updFn s.execPC i ExecPC.finished
               cell := updFn s.cell i (some (Except.ok c))
               events := s.events ++ [REvent.entryRemoved i, REvent.resolved i c] }
    | ExecPC.failLogWait e =>
      { s with execPC := updFn s.execPC i ExecPC.finished
               cell := updFn s.cell i (some (Except.error e))
               events := s.events ++ [REvent.rejected i e] }
    | _ => s

/-- Task identifiers: the callers and the promise executors of their
refreshes. -/
inductive Tid where
  | caller (i : Nat)
  | exec (i : Nat)
deriving DecidableEq, Repr

/-- One scheduler step. -/
def stepModel (cfg : ModelCfg) (s : RState) (t : Tid) : RState :=
  match t with
  | Tid.caller i => callerStep cfg i s
  | Tid.exec i => execStep cfg i s

/-- Run a schedule from the initial state. -/
def runModel (cfg : ModelCfg) (sched : List Tid) : RState :=
  sched.foldl (stepModel cfg) (initState cfg)

/-!
## Concrete scenarios

Closed configurations used to evaluate the refresh machine on particular
interleavings.
-/

/-- A stale OAuth2 credential: refresh token present, expiry in the past. -/
def credsStale : OAuth2Creds :=
  { access_token := "old", refresh_token := some "r1",
    expires_at := some (JsDate.valid 0) }

/-- Fresh credentials delivered by the first outbound refresh call. -/
def credsNewA : OAuth2Creds :=
  { access_token := "newA", refresh_token := some "r2" }

/-- Fresh credentials delivered by the second outbound refresh call. -/
def credsNewB : OAuth2Creds :=
  { access_token := "newB", refresh_token := some "r3" }

/-- A caller holding the stale connection `("c1", "slack")` of environment 1. -/
def callerStale : CallerCfg :=
  { connectionId := "c1", providerConfigKey := "slack", environmentId := 1,
    creds := credsStale }

/-- Two concurrent callers against the same stale connection of an
introspection-based provider whose introspection reports the token expired. -/
def cfgIntrospectRace : ModelCfg :=
  { callers := [callerStale, callerStale]
    provider := { shouldIntrospect := true, introspectExpired := true }
    now := 1000000
    refreshOutcome := fun i => if i = 0 then Except.ok credsNewA else Except.ok credsNewB
    store0 := fun _ => credsStale }

/-- Interleaving in which both callers run their registry check (and suspend
at the introspection call) before either resumes: both resume, both start a
refresh, both refreshes complete, both callers return. -/
def schedIntrospectRace : List Tid :=
  [Tid.caller 0, Tid.caller 1, Tid.caller 0, Tid.caller 1,
   Tid.exec 0, Tid.exec 0, Tid.exec 1, Tid.exec 1, Tid.caller 0, Tid.caller 1]

/-- Stored credentials of environment 1's `("user-1", "slack")` connection. -/
def credsEnv1Old : OAuth2Creds :=
  { access_token := "env1-old", refresh_token := some "r1",
    expires_at := some (JsDate.valid 0) }

/-- Stored credentials of environment 2's `("user-1", "slack")` connection. -/
def credsEnv2Old : OAuth2Creds :=
  { access_token := "env2-old", refresh_token := some "r2",
    expires_at := some (JsDate.valid 0) }

/-- Credentials delivered by refreshing environment 1's connection. -/
def credsEnv1New : OAuth2Creds :=
  { access_token := "env1-new", refresh_token := some "r1b" }

/-- Two environments, each holding a connection with the identical
`(connectionId, providerConfigKey)` pair; a caller from each environment. -/
def cfgCrossEnv : ModelCfg :=
  { callers := [ { connectionId := "user-1", providerConfigKey := "slack",
                   environmentId := 1, creds := credsEnv1Old },
                 { connectionId := "user-1", providerConfigKey := "slack",
                   environmentId := 2, creds := credsEnv2Old } ]
    now := 1000000
    refreshOutcome := fun _ => Except.ok credsEnv1New
    store0 := fun k => if k = ("user-1", "slack", 1) then credsEnv1Old else credsEnv2Old }

/-- Environment 1's caller starts a refresh; environment 2's caller runs its
registry check while that refresh is in flight. -/
def schedCrossEnv : List Tid :=
  [Tid.caller 0, Tid.caller 1, Tid.exec 0, Tid.exec 0, Tid.caller 0, Tid.caller 1]

/-- Environment 1's stored row for the cross-environment scenario. -/
def rowEnv1 : Connection :=
  { id := 1, connection_id := "user-1", provider_config_key := "slack",
    environment_id := 1, credentials := AuthCredentials.oauth2 credsEnv1Old }

/-- Environment 2's stored row for the cross-environment scenario. -/
def rowEnv2 : Connection :=
  { id := 2, connection_id := "user-1", provider_config_key := "slack",
    environment_id := 2, credentials := AuthCredentials.oauth2 credsEnv2Old }

/-- A caller with an activity-log context that forces an instant refresh,
followed by a plain caller for the same connection; the outbound token call
fails. -/
def cfgLogWindow : ModelCfg :=
  { callers := [ { connectionId := "c1", providerConfigKey := "slack",
                   environmentId := 1, creds := credsStale,
                   instantRefresh := true, hasActivityLog := true },
                 callerStale ]
    now := 1000000
    refreshOutcome := fun _ => Except.error (RefreshErr.refreshFailed "upstream 500")
    store0 := fun _ => credsStale }

/-- The outbound call of caller 0's refresh fails while caller 0 is still
suspended at the pre-registration activity-log writes; the failure is
surfaced, then caller 0 resumes and pushes the registry entry; caller 1
arrives afterwards. -/
def schedLogWindow : List Tid :=
  [Tid.caller 0, Tid.exec 0, Tid.exec 0, Tid.caller 0, Tid.caller 0,
   Tid.caller 1, Tid.caller 1]

/-- The credential of the spec's end-to-end scenario: `access_token = "a1"`,
`refresh_token = "r1"`, expired one second before the clock `now = 0`. -/
def credsScenario : OAuth2Creds :=
  { access_token := "a1", refresh_token := some "r1",
    expires_at := some (JsDate.valid (-1000)) }

/-- Refreshed credential of the end-to-end scenario. -/
def credsScenarioNew : OAuth2Creds :=
  { access_token := "a2", refresh_token := some "r1" }

/-- One caller refreshing the stale scenario connection of environment 42. -/
def cfgScenario : ModelCfg :=
  { callers := [ { connectionId := "c1", providerConfigKey := "slack",
                   environmentId := 42, creds := credsScenario } ]
    now := 0
    refreshOutcome := fun _ => Except.ok credsScenarioNew
    store0 := fun _ => credsScenario }

/-- The single caller starts the refresh, the refresh completes, the caller
returns. -/
def schedScenario : List Tid :=
  [Tid.caller 0, Tid.exec 0, Tid.exec 0, Tid.caller 0]

/-!
## Claims about the credential parser
-/

/-- C6: `parseRawCredentials` fails with `IncompleteCredentials` if and only
if the declared auth mode is OAuth2 and `access_token` is absent from the raw
input, or the declared auth mode is OAuth1 and at least one of `oauth_token`
or `oauth_token_secret` is absent; in particular parsing the empty object
under OAuth2 fails with `IncompleteCredentials`. -/
theorem parse_incomplete_iff_c6 (pt : String → JsDate) (now : Int)
    (raw : RawCreds) (mode : AuthModes) :
    (parseRawCredentials pt now raw mode = Except.error NangoErr.incompleteRawCredentials ↔
      ((mode = AuthModes.OAuth2 ∧ truthyS raw.access_token = false) ∨
       (mode = AuthModes.OAuth1 ∧
         (truthyS raw.oauth_token = false ∨ truthyS raw.oauth_token_secret = false)))) ∧
    parseRawCredentials pt now {} AuthModes.OAuth2 =
      Except.error NangoErr.incompleteRawCredentials := by
  refine ⟨?_, rfl⟩
  cases mode
  · cases h : truthyS raw.access_token <;> simp [parseRawCredentials, h]
  · cases h1 : truthyS raw.oauth_token <;> cases h2 : truthyS raw.oauth_token_secret <;>
      simp [parseRawCredentials, h1, h2]
  · simp [parseRawCredentials]
  · simp [parseRawCredentials]

/-- C7: for an OAuth2 raw input with a truthy `access_token`, the parsed
credential's `expires_at` is the parsed absolute timestamp of the raw
`expires_at` field when that field is present (taking precedence over
`expires_in`); otherwise, for a numeric `expires_in`, it is the clock plus
`expires_in` seconds; otherwise it is absent. -/
theorem parse_oauth2_expiry_c7 (pt : String → JsDate) (now : Int) (raw : RawCreds)
    (hacc : truthyS raw.access_token = true) :
    (∀ s, raw.expires_at = some s → s.isEmpty = false →
      parseRawCredentials pt now raw AuthModes.OAuth2 =
        Except.ok (AuthCredentials.oauth2
          { access_token := raw.access_token.getD ""
            refresh_token := raw.refresh_token
            expires_at := some (pt s)
            raw := raw })) ∧
    (∀ t n, truthyS raw.expires_at = false → raw.expires_in = some t →
      t.isEmpty = false → parseIntJs t = some n →
      parseRawCredentials pt now raw AuthModes.OAuth2 =
        Except.ok (AuthCredentials.oauth2
          { access_token := raw.access_token.getD ""
            refresh_token := raw.refresh_token
            expires_at := some (JsDate.valid (now + n * 1000))
            raw := raw })) ∧
    (truthyS raw.expires_at = false → truthyS raw.expires_in = false →
      parseRawCredentials pt now raw AuthModes.OAuth2 =
        Except.ok (AuthCredentials.oauth2
          { access_token := raw.access_token.getD ""
            refresh_token := raw.refresh_token
            expires_at := none
            raw := raw })) := by
  refine ⟨?_, ?_, ?_⟩
  · intro s hs hne
    have hat : truthyS (some s) = true := by simp [truthyS, hne]
    simp [parseRawCredentials, hacc, parseOAuth2ExpiresAt, hs, hat]
  · intro t n hat ht hne hn
    have hin : truthyS (some t) = true := by simp [truthyS, hne]
    simp [parseRawCredentials, hacc, parseOAuth2ExpiresAt, hat, ht, hin, hn]
  · intro hat hin
    simp [parseRawCredentials, hacc, parseOAuth2ExpiresAt, hat, hin]

/-- Raw payload of the parser-completeness witness:
`{access_token: "t", expires_in: "3600"}`. -/
def rawW : RawCreds :=
  { access_token := some "t", expires_in := some "3600" }

/-- Witness for C7: parsing `{access_token: "t", expires_in: "3600"}` at clock
0 yields a credential expiring 3600 seconds from the clock. -/
theorem parse_oauth2_expiry_c7_witness :
    truthyS rawW.access_token = true ∧
    parseRawCredentials (fun _ => JsDate.invalid) 0 rawW AuthModes.OAuth2 =
      Except.ok (AuthCredentials.oauth2
        { access_token := rawW.access_token.getD ""
          refresh_token := rawW.refresh_token
          expires_at := some (JsDate.valid (0 + 3600 * 1000))
          raw := rawW }) :=
  ⟨by decide,
   (parse_oauth2_expiry_c7 (fun _ => JsDate.invalid) 0 rawW (by decide)).2.1
     "3600" 3600 (by decide) rfl (by decide) (by decide)⟩

/-- C8: for every raw input, an auth mode that is neither OAuth2 nor OAuth1
fails with `UnsupportedAuthMode` carrying the raw payload, and is never
coerced into a credential. -/
theorem parse_unsupported_mode_c8 (pt : String → JsDate) (now : Int)
    (raw : RawCreds) (mode : AuthModes) (h2 : mode ≠ AuthModes.OAuth2)
    (h1 : mode ≠ AuthModes.OAuth1) :
    parseRawCredentials pt now raw mode =
      Except.error (NangoErr.unsupportedAuthMode raw) := by
  cases mode
  · exact absurd rfl h2
  · exact absurd rfl h1
  · rfl
  · rfl

/-- Witness for C8: the `ApiKey` mode is rejected with the raw payload
attached. -/
theorem parse_unsupported_mode_c8_witness :
    AuthModes.ApiKey ≠ AuthModes.OAuth2 ∧ AuthModes.ApiKey ≠ AuthModes.OAuth1 ∧
    parseRawCredentials (fun _ => JsDate.invalid) 0 rawW AuthModes.ApiKey =
      Except.error (NangoErr.unsupportedAuthMode rawW) :=
  ⟨by decide, by decide,
   parse_unsupported_mode_c8 (fun _ => JsDate.invalid) 0 rawW AuthModes.ApiKey
     (by decide) (by decide)⟩

/-!
## Claims about the refresh state machine (concrete interleavings)
-/

/-- C1 is violated by the code: for an introspection-based provider the
registry check of lines 455-464 and the registry push of line 531 are
separated by the `await` of `introspectedTokenExpired` (line 468), so two
concurrent callers against the same stale connection can both observe an
empty registry.  On the exhibited interleaving — both callers run their
check before either resumes from introspection — two outbound refresh calls
are made and the two callers return different credentials, refuting "exactly
one outbound refresh call is made" and "all N calls return the same resulting
credential".  (The pending-registry entry is indeed absent at the end.) -/
theorem refresh_dedup_race_c1 :
    (runModel cfgIntrospectRace schedIntrospectRace).outbound = 2 ∧
    (runModel cfgIntrospectRace schedIntrospectRace).callerPC 0 =
      CallerPC.doneOk credsNewA ∧
    (runModel cfgIntrospectRace schedIntrospectRace).callerPC 1 =
      CallerPC.doneOk credsNewB ∧
    credsNewA ≠ credsNewB ∧
    (runModel cfgIntrospectRace schedIntrospectRace).registry = [] := by
  refine ⟨rfl, by decide, by decide, by decide, by decide⟩

/-- C2 is violated by the code: `getConnection` itself is correctly scoped by
`environment_id`, but the pending-refresh registry is keyed by
`(connectionId, providerConfigKey)` only (lines 455-460), so when two
environments each contain a connection with the same pair, a caller from
environment 2 that arrives while environment 1's refresh is in flight
attaches to that refresh and receives environment 1's refreshed credentials —
credentials of a connection outside its environment.  Environment 2's own
row is never refreshed (only one outbound call is made, against environment
1's connection). -/
theorem cross_env_leak_c2 :
    getConnection [rowEnv1, rowEnv2] "user-1" "slack" 2 =
      Except.ok rowEnv2 ∧
    (cfgCrossEnv.callers.get? 1).map CallerCfg.environmentId = some 2 ∧
    (cfgCrossEnv.callers.get? 0).map CallerCfg.environmentId = some 1 ∧
    (runModel cfgCrossEnv schedCrossEnv).callerPC 1 =
      CallerPC.doneOk credsEnv1New ∧
    (runModel cfgCrossEnv schedCrossEnv).store ("user-1", "slack", 2) =
      credsEnv2Old ∧
    (runModel cfgCrossEnv schedCrossEnv).store ("user-1", "slack", 1) =
      credsEnv1New ∧
    (runModel cfgCrossEnv schedCrossEnv).outbound = 1 ∧
    credsEnv1New ≠ credsEnv2Old := by
  refine ⟨by decide, by decide, by decide, by decide, by decide, by decide, rfl,
    by decide⟩

/-- C4 is violated by the code: when an activity-log context is attached, the
registry push of line 531 happens only after the `await`s of lines 521-530,
so if the outbound call settles first, the failure path removes nothing
(lines 497-499 run against a registry that does not yet hold the entry), the
failure is surfaced, and then the resumed method registers the entry — which
then survives forever, since the promise executor has already finished.  On
the exhibited interleaving the refresh fails and completes, yet the registry
still holds the entry afterwards; a later caller for the same connection
finds that dead entry and is handed the stale failure without any new
outbound call being made (a permanent lockout). -/
theorem stale_registry_entry_c4 :
    (runModel cfgLogWindow schedLogWindow).cell 0 =
      some (Except.error (RefreshErr.refreshFailed "upstream 500")) ∧
    (runModel cfgLogWindow schedLogWindow).callerPC 0 =
      CallerPC.doneErr (RefreshErr.refreshFailed "upstream 500") ∧
    (runModel cfgLogWindow schedLogWindow).registry = [(("c1", "slack"), 0)] ∧
    (runModel cfgLogWindow schedLogWindow).callerPC 1 =
      CallerPC.doneErr (RefreshErr.refreshFailed "upstream 500") ∧
    (runModel cfgLogWindow schedLogWindow).outbound = 1 := by
  refine ⟨by decide, by decide, by decide, by decide, rfl⟩

/-!
## Claims about the connection store
-/

/-- Helper: after filtering out every row matching a predicate, a further
filter by that predicate is empty. -/
theorem filter_not_filter_empty {α : Type} (p : α → Bool) (l : List α) :
    (l.filter (fun r => !p r)).filter p = [] := by
  induction l with
  | nil => rfl
  | cons a l ih =>
    by_cases h : p a <;> simp [List.filter, h, ih]

/-- C9: `deleteConnection` requests cancellation of the dependent scheduled
sync work before issuing the row deletion (the effect trace lists the
cancellation first), and a subsequent `getConnection` for the same
`(connectionId, providerConfigKey, environmentId)` triple fails with
`UnknownConnection`. -/
theorem delete_cancels_then_removes_c9 (connection : Connection)
    (providerConfigKey : String) (environment_id : Nat) (db : List Connection)
    (h1 : connection.connection_id.isEmpty = false)
    (h2 : providerConfigKey.isEmpty = false) (h3 : (environment_id == 0) = false) :
    (deleteConnection connection providerConfigKey environment_id db).1 =
      [StoreEvent.cancelSyncSchedule connection.connection_id,
       StoreEvent.rowDeleteIssued connection.connection_id providerConfigKey
         environment_id] ∧
    getConnection (deleteConnection connection providerConfigKey environment_id db).2.1
      connection.connection_id providerConfigKey environment_id =
      Except.error (NangoErr.unknownConnection connection.connection_id
        providerConfigKey) := by
  constructor
  · rfl
  · have hempty := filter_not_filter_empty
      (fun r => connMatches connection.connection_id providerConfigKey environment_id r) db
    simp [getConnection, deleteConnection, h1, h2, h3, hempty]

/-- A stored row used by the witnesses of the store claims. -/
def rowWitness : Connection :=
  { id := 7, connection_id := "c1", provider_config_key := "slack",
    environment_id := 1, credentials := AuthCredentials.oauth2 credsStale }

/-- Witness for C9: deleting the witness row from a one-row store cancels the
schedule first and makes the subsequent lookup fail. -/
theorem delete_cancels_then_removes_c9_witness :
    rowWitness.connection_id.isEmpty = false ∧ ("slack".isEmpty = false) ∧
    (((1 : Nat) == 0) = false) ∧
    ((deleteConnection rowWitness "slack" 1 [rowWitness]).1 =
      [StoreEvent.cancelSyncSchedule rowWitness.connection_id,
       StoreEvent.rowDeleteIssued rowWitness.connection_id "slack" 1] ∧
    getConnection (deleteConnection rowWitness "slack" 1 [rowWitness]).2.1
      rowWitness.connection_id "slack" 1 =
      Except.error (NangoErr.unknownConnection rowWitness.connection_id "slack")) :=
  ⟨by decide, by decide, by decide,
   delete_cancels_then_removes_c9 rowWitness "slack" 1 [rowWitness] (by decide)
     (by decide) (by decide)⟩

/-- Helper: mapping a row transformer that preserves the scoping triple does
not change how many rows match it. -/
theorem countP_map_eq {α : Type} (p : α → Bool) (f : α → α) (l : List α)
    (hf : ∀ a, p (f a) = p a) : (l.map f).countP p = l.countP p := by
  induction l with
  | nil => rfl
  | cons a l ih => simp [List.countP_cons, hf, ih]

/-- C10: `importOAuthConnection` performs no prior-existence check: when a
row with the `(connectionId, providerConfigKey, environmentId)` triple exists
it silently overwrites that row through the upsert's conflict-merge and never
raises a connection-already-exists error (it can in fact never fail), while
`importApiAuthConnection` raises `connection_already_exists` for the same
store and performs no insert. -/
theorem import_overwrite_c10 (db : List Connection) (cid pck : String) (env : Nat)
    (credsO credsA : AuthCredentials) (ccfg mdata : List (String × String))
    (h1 : checkIfConnectionExists cid pck env db = true)
    (h2 : tripleCount db cid pck env ≤ 1) :
    (∃ db2 rowId,
      importOAuthConnection cid pck env credsO ccfg mdata db =
        Except.ok (db2, rowId) ∧
      tripleCount db2 cid pck env = 1 ∧
      ∀ r ∈ db2, connMatches cid pck env r = true →
        r.credentials = credsO ∧ r.connection_config = ccfg ∧ r.metadata = mdata) ∧
    importApiAuthConnection cid pck env credsA db =
      Except.error NangoErr.connectionAlreadyExists ∧
    (∀ db3 cid3 pck3 env3 cr3 cc3 m3, ∃ res,
      importOAuthConnection cid3 pck3 env3 cr3 cc3 m3 db3 = Except.ok res) := by
  have hex : ∃ r ∈ db, connMatches cid pck env r = true := by
    simpa [checkIfConnectionExists, List.any_eq_true] using h1
  refine ⟨?_, ?_, fun db3 cid3 pck3 env3 cr3 cc3 m3 => ⟨_, rfl⟩⟩
  · have hsome : (db.find? (fun r => connMatches cid pck env r)).isSome := by
      rw [List.find?_isSome]
      exact hex
    obtain ⟨row, hfind⟩ := Option.isSome_iff_exists.mp hsome
    refine ⟨(upsertConnection cid pck credsO ccfg env mdata db).1,
      (upsertConnection cid pck credsO ccfg env mdata db).2, rfl, ?_, ?_⟩
    all_goals rw [show upsertConnection cid pck credsO ccfg env mdata db =
      (db.map (fun r =>
        if connMatches cid pck env r then
          { r with credentials := credsO, connection_config := ccfg,
                   metadata := mdata }
        else r), row.id) from by simp [upsertConnection, hfind]]
    · have hpres : ∀ r : Connection,
          connMatches cid pck env
            (if connMatches cid pck env r then
              { r with credentials := credsO, connection_config := ccfg,
                       metadata := mdata }
             else r) = connMatches cid pck env r := by
        intro r
        by_cases h : connMatches cid pck env r = true
        · rw [if_pos h, h]
          simpa [connMatches] using h
        · rw [if_neg h]
      have hcnt := countP_map_eq (fun r => connMatches cid pck env r)
        (fun r =>
          if connMatches cid pck env r then
            { r with credentials := credsO, connection_config := ccfg,
                     metadata := mdata }
          else r) db hpres
      have hpos : 0 < tripleCount db cid pck env := by
        rw [tripleCount, List.countP_pos_iff]
        exact hex
      have : tripleCount db cid pck env = 1 := by omega
      simpa [tripleCount, hcnt] using this
    · intro r hr hmatch
      obtain ⟨a, _, hfa⟩ := List.mem_map.mp hr
      by_cases ha : connMatches cid pck env a = true
      · rw [← hfa]
        simp [ha]
      · rw [← hfa] at hmatch
        simp [ha] at hmatch
  · simp [importApiAuthConnection, h1]

/-- Witness for C10: importing over the one-row store holding the witness row
overwrites it, while the API-auth import refuses. -/
theorem import_overwrite_c10_witness :
    checkIfConnectionExists "c1" "slack" 1 [rowWitness] = true ∧
    tripleCount [rowWitness] "c1" "slack" 1 ≤ 1 ∧
    ((∃ db2 rowId,
      importOAuthConnection "c1" "slack" 1 (AuthCredentials.oauth2 credsNewA)
          [("sub", "x")] [("m", "y")] [rowWitness] =
        Except.ok (db2, rowId) ∧
      tripleCount db2 "c1" "slack" 1 = 1 ∧
      ∀ r ∈ db2, connMatches "c1" "slack" 1 r = true →
        r.credentials = AuthCredentials.oauth2 credsNewA ∧
        r.connection_config = [("sub", "x")] ∧ r.metadata = [("m", "y")]) ∧
    importApiAuthConnection "c1" "slack" 1 (AuthCredentials.apiKey "k") [rowWitness] =
      Except.error NangoErr.connectionAlreadyExists ∧
    (∀ db3 cid3 pck3 env3 cr3 cc3 m3, ∃ res,
      importOAuthConnection cid3 pck3 env3 cr3 cc3 m3 db3 = Except.ok res)) :=
  ⟨by decide, by decide,
   import_overwrite_c10 [rowWitness] "c1" "slack" 1
     (AuthCredentials.oauth2 credsNewA) (AuthCredentials.apiKey "k")
     [("sub", "x")] [("m", "y")] (by decide) (by decide)⟩

/-- Buffer defaulting: outside the falsy corner `some 0`, the JavaScript
expression `template.token_expiration_buffer || 900` is plain defaulting. -/
theorem tokenExpirationBufferJs_eq_getD (tb : Option Nat) (h : tb ≠ some 0) :
    tokenExpirationBufferJs tb = tb.getD 900 := by
  match tb with
  | none => rfl
  | some 0 => exact absurd rfl h
  | some (b + 1) => rfl

/-- C3: the refresh guard of `refreshOauth2CredentialsIfNeeded` holds if and
only if the credential has a refresh token and (an instant refresh was
requested, or the provider requires introspection and introspection reports
the token expired, or an expiry is present and `now + buffer >= expires_at`,
the buffer being the template's expiration buffer defaulting to 900 seconds);
and a caller holding credentials with no expiry, under a provider with no
introspection requirement and no instant-refresh request, is returned the
stored credentials unchanged with no outbound refresh call, even when a
refresh token is present. -/
theorem refresh_condition_c3 (instantRefresh shouldIntrospect introspectExpired : Bool)
    (c : OAuth2Creds) (tb : Option Nat) (now : Int) (cfg : ModelCfg) (cc : CallerCfg)
    (htb : tb ≠ some 0)
    (hcallers : cfg.callers = [cc])
    (hprov : cfg.provider.shouldIntrospect = false)
    (hinst : cc.instantRefresh = false)
    (hexp : cc.creds.expires_at = none) :
    (refreshNeeded (refreshFlag instantRefresh shouldIntrospect introspectExpired)
        c tb now = true ↔
      (truthyS c.refresh_token = true ∧
        (instantRefresh = true ∨
         (shouldIntrospect = true ∧ introspectExpired = true) ∨
         (∃ d, c.expires_at = some d ∧
            isTokenExpiredJs d (tb.getD 900) now = true)))) ∧
    ((runModel cfg [Tid.caller 0]).callerPC 0 = CallerPC.doneOk cc.creds ∧
     (runModel cfg [Tid.caller 0]).outbound = 0) := by
  constructor
  · rw [← tokenExpirationBufferJs_eq_getD tb htb]
    cases hce : c.expires_at with
    | none =>
      simp [refreshNeeded, refreshFlag, hce, Bool.and_eq_true, Bool.or_eq_true]
    | some d =>
      simp only [refreshNeeded, refreshFlag, hce, Bool.and_eq_true, Bool.or_eq_true]
      constructor
      · rintro ⟨hrt, hrest⟩
        refine ⟨hrt, ?_⟩
        rcases hrest with (h | h) | h
        · exact Or.inl h
        · exact Or.inr (Or.inl h)
        · exact Or.inr (Or.inr ⟨d, rfl, h⟩)
      · rintro ⟨hrt, hrest⟩
        refine ⟨hrt, ?_⟩
        rcases hrest with h | h | ⟨d2, hd2, h⟩
        · exact Or.inl (Or.inl h)
        · exact Or.inl (Or.inr h)
        · cases hd2
          exact Or.inr h
  · have hneed : refreshNeeded false cc.creds cfg.provider.token_expiration_buffer
        cfg.now = false := by
      simp [refreshNeeded, hexp]
    constructor <;>
      simp [runModel, stepModel, callerStep, initState, hcallers,
        lastRunningRefresh, hinst, hprov, decideRefresh, hneed, updFn]

/-!
## The per-refresh event-order invariant (C5)

The events an executor emits are in program order; the invariant below pins
the exact emitted prefix for every executor state, for every configuration
and every schedule.
-/

/-- Selects the events emitted by the executor of refresh `rid`. -/
def isExecEvent (rid : Nat) : REvent → Bool
  | REvent.outboundStart r => r == rid
  | REvent.persisted r _ _ => r == rid
  | REvent.entryRemoved r => r == rid
  | REvent.resolved r _ => r == rid
  | REvent.rejected r _ => r == rid
  | _ => false

/-- The projection of an event trace onto one refresh's executor. -/
def execEvents (rid : Nat) (evs : List REvent) : List REvent :=
  evs.filter (isExecEvent rid)

/-- The exact event prefix the executor of refresh `rid` has emitted, as a
function of its program counter and its promise cell. -/
def execTrace (cc : CallerCfg) (rid : Nat) (p : ExecPC)
    (res : Option (Except RefreshErr OAuth2Creds)) : List REvent :=
  match p with
  | ExecPC.notStarted => []
  | ExecPC.outboundWait => [REvent.outboundStart rid]
  | ExecPC.persistWait c =>
    [REvent.outboundStart rid, REvent.persisted rid cc.environmentId c]
  | ExecPC.failLogWait _ =>
    [REvent.outboundStart rid, REvent.entryRemoved rid]
  | ExecPC.finished =>
    match res with
    | some (Except.ok c) =>
      [REvent.outboundStart rid, REvent.persisted rid cc.environmentId c,
       REvent.entryRemoved rid, REvent.resolved rid c]
    | some (Except.error e) =>
      [REvent.outboundStart rid, REvent.entryRemoved rid, REvent.rejected rid e]
    | none => []

/-- Trace invariant of one refresh: executors of absent callers never start,
the projected trace always equals `execTrace`, and the promise cell is only
settled once the executor has finished. -/
def TraceInvAt (cfg : ModelCfg) (s : RState) (rid : Nat) : Prop :=
  (cfg.callers.get? rid = none →
     s.execPC rid = ExecPC.notStarted ∧ execEvents rid s.events = []) ∧
  (∀ cc, cfg.callers.get? rid = some cc →
     execEvents rid s.events = execTrace cc rid (s.execPC rid) (s.cell rid)) ∧
  (s.execPC rid ≠ ExecPC.finished → s.cell rid = none)

/-- A caller still before the staleness decision has not started an
executor. -/
def StartInv (s : RState) : Prop :=
  ∀ rid, (s.callerPC rid = CallerPC.ready ∨ s.callerPC rid = CallerPC.introspectWait) →
    s.execPC rid = ExecPC.notStarted

/-- Every credential a completed caller holds is either the one its own
connection already held, or sits in some settled refresh cell. -/
def DoneInv (cfg : ModelCfg) (s : RState) : Prop :=
  ∀ i c, s.callerPC i = CallerPC.doneOk c →
    (∃ cc, cfg.callers.get? i = some cc ∧ c = cc.creds) ∨
    (∃ rid, s.cell rid = some (Except.ok c))

/-- The inductive invariant of the refresh machine. -/
def RefreshInv (cfg : ModelCfg) (s : RState) : Prop :=
  (∀ rid, TraceInvAt cfg s rid) ∧ StartInv s ∧ DoneInv cfg s

/-- Projection distributes over appending events. -/
theorem execEvents_append (rid : Nat) (evs l : List REvent) :
    execEvents rid (evs ++ l) = execEvents rid evs ++ l.filter (isExecEvent rid) := by
  simp [execEvents]

/-- Trace invariant is stable under steps that do not touch this refresh's
executor, cell, or events. -/
theorem TraceInvAt_stable (cfg : ModelCfg) (s s2 : RState) (rid : Nat)
    (hexec : s2.execPC rid = s.execPC rid) (hcell : s2.cell rid = s.cell rid)
    (l : List REvent) (hev : s2.events = s.events ++ l)
    (hl : l.filter (isExecEvent rid) = [])
    (h : TraceInvAt cfg s rid) : TraceInvAt cfg s2 rid := by
  obtain ⟨h1, h2, h3⟩ := h
  refine ⟨fun hn => ?_, fun cc hcc => ?_, fun hf => ?_⟩
  · obtain ⟨ha, hb⟩ := h1 hn
    exact ⟨by rw [hexec]; exact ha, by rw [hev, execEvents_append, hl, List.append_nil]; exact hb⟩
  · rw [hev, execEvents_append, hl, List.append_nil, hexec, hcell]
    exact h2 cc hcc
  · rw [hcell]
    exact h3 (by rw [← hexec]; exact hf)

/-- Completed-caller invariant is stable when the moved caller does not land
on a `doneOk` and no cell changes. -/
theorem DoneInv_stable (cfg : ModelCfg) (s s2 : RState) (i : Nat) (pc2 : CallerPC)
    (hpc : s2.callerPC = updFn s.callerPC i pc2)
    (hnd : ∀ c, pc2 ≠ CallerPC.doneOk c)
    (hcell : ∀ r, s2.cell r = s.cell r)
    (hD : DoneInv cfg s) : DoneInv cfg s2 := by
  intro j c hj
  rw [hpc] at hj
  by_cases hji : j = i
  · subst hji
    rw [updFn, if_pos rfl] at hj
    exact absurd hj (hnd c)
  · rw [updFn, if_neg hji] at hj
    rcases hD j c hj with h | ⟨r, hr⟩
    · exact Or.inl h
    · exact Or.inr ⟨r, by rw [hcell]; exact hr⟩

/-- Completed-caller invariant when the moved caller returns its own stored
credentials. -/
theorem DoneInv_own (cfg : ModelCfg) (s s2 : RState) (i : Nat) (cc : CallerCfg)
    (hc : cfg.callers.get? i = some cc)
    (hpc : s2.callerPC = updFn s.callerPC i (CallerPC.doneOk cc.creds))
    (hcell : ∀ r, s2.cell r = s.cell r)
    (hD : DoneInv cfg s) : DoneInv cfg s2 := by
  intro j c hj
  rw [hpc] at hj
  by_cases hji : j = i
  · subst hji
    rw [updFn, if_pos rfl] at hj
    cases hj
    exact Or.inl ⟨cc, hc, rfl⟩
  · rw [updFn, if_neg hji] at hj
    rcases hD j c hj with h | ⟨r, hr⟩
    · exact Or.inl h
    · exact Or.inr ⟨r, by rw [hcell]; exact hr⟩

/-- Completed-caller invariant when the moved caller took its result from a
settled cell. -/
theorem DoneInv_cellresult (cfg : ModelCfg) (s s2 : RState) (i rid : Nat)
    (c : OAuth2Creds) (hcr : s.cell rid = some (Except.ok c))
    (hpc : s2.callerPC = updFn s.callerPC i (CallerPC.doneOk c))
    (hcell : ∀ r, s2.cell r = s.cell r)
    (hD : DoneInv cfg s) : DoneInv cfg s2 := by
  intro j c2 hj
  rw [hpc] at hj
  by_cases hji : j = i
  · subst hji
    rw [updFn, if_pos rfl] at hj
    cases hj
    exact Or.inr ⟨rid, by rw [hcell]; exact hcr⟩
  · rw [updFn, if_neg hji] at hj
    rcases hD j c2 hj with h | ⟨r, hr⟩
    · exact Or.inl h
    · exact Or.inr ⟨r, by rw [hcell]; exact hr⟩

/-- Completed-caller invariant when a previously unsettled cell is settled
and no caller moves. -/
theorem DoneInv_cellset (cfg : ModelCfg) (s s2 : RState) (i : Nat)
    (v : Option (Except RefreshErr OAuth2Creds))
    (hpc : s2.callerPC = s.callerPC)
    (hcell : s2.cell = updFn s.cell i v)
    (hnone : s.cell i = none)
    (hD : DoneInv cfg s) : DoneInv cfg s2 := by
  intro j c hj
  rw [hpc] at hj
  rcases hD j c hj with h | ⟨r, hr⟩
  · exact Or.inl h
  · refine Or.inr ⟨r, ?_⟩
    rw [hcell]
    by_cases hri : r = i
    · subst hri
      rw [hnone] at hr
      cases hr
    · rw [updFn, if_neg hri]
      exact hr

/-- Updating a task array reads back the written value at the written index. -/
theorem updFn_self {α : Type} (f : Nat → α) (i : Nat) (v : α) : updFn f i v i = v := by
  simp [updFn]

/-- Updating a task array leaves other indices unchanged. -/
theorem updFn_other {α : Type} (f : Nat → α) (i j : Nat) (v : α) (h : j ≠ i) :
    updFn f i v j = f j := by
  simp [updFn, h]

/-- Invariant preservation for the common effect of starting a refresh: the
executor moves to `outboundWait`, an `outboundStart` event is emitted, and the
caller moves to a post-decision program counter. -/
theorem RefreshInv_afterStart (cfg : ModelCfg) (s s2 : RState) (i : Nat)
    (cc : CallerCfg) (pc2 : CallerPC)
    (hc : cfg.callers.get? i = some cc)
    (hns : s.execPC i = ExecPC.notStarted)
    (hr : pc2 ≠ CallerPC.ready)
    (hw : pc2 ≠ CallerPC.introspectWait)
    (hnd : ∀ c, pc2 ≠ CallerPC.doneOk c)
    (hpc : s2.callerPC = updFn s.callerPC i pc2)
    (hexec : s2.execPC = updFn s.execPC i ExecPC.outboundWait)
    (hcell : s2.cell = s.cell)
    (hev : s2.events = s.events ++ [REvent.outboundStart i])
    (hInv : RefreshInv cfg s) : RefreshInv cfg s2 := by
  obtain ⟨hT, hS, hD⟩ := hInv
  have hn3 : s.cell i = none := (hT i).2.2 (by rw [hns]; intro h; cases h)
  refine ⟨fun rid => ?_, fun rid h => ?_, ?_⟩
  · by_cases hri : rid = i
    · subst hri
      refine ⟨fun hn => ?_, fun cc2 hcc2 => ?_, fun _ => by rw [hcell]; exact hn3⟩
      · rw [hc] at hn; cases hn
      · rw [hc] at hcc2
        cases hcc2
        have hold := (hT rid).2.1 cc hc
        rw [hns] at hold
        rw [hev, execEvents_append, hexec, updFn_self, hcell, hold]
        simp [execTrace, isExecEvent, execEvents]
    · have hbeq : (i == rid) = false := beq_eq_false_iff_ne.mpr (Ne.symm hri)
      exact TraceInvAt_stable cfg s s2 rid
        (by rw [hexec]; exact updFn_other _ _ _ _ hri)
        (by rw [hcell]) _ hev (by simp [isExecEvent, hbeq]) (hT rid)
  · by_cases hri : rid = i
    · subst hri
      rw [hpc, updFn_self] at h
      rcases h with h | h
      · exact absurd h hr
      · exact absurd h hw
    · rw [hpc, updFn_other _ _ _ _ hri] at h
      rw [hexec, updFn_other _ _ _ _ hri]
      exact hS rid h
  · exact DoneInv_stable cfg s s2 i pc2 hpc hnd (fun r => by rw [hcell]) hD

/-- Invariant preservation for `startRefresh`. -/
theorem RefreshInv_startRefresh (cfg : ModelCfg) (s : RState) (i : Nat)
    (cc : CallerCfg)
    (hc : cfg.callers.get? i = some cc)
    (hns : s.execPC i = ExecPC.notStarted)
    (hInv : RefreshInv cfg s) : RefreshInv cfg (startRefresh cc i s) := by
  cases hlog : cc.hasActivityLog with
  | true =>
    exact RefreshInv_afterStart cfg s _ i cc CallerPC.logWaitStart hc hns
      (by intro h; cases h) (by intro h; cases h) (fun c h => by cases h)
      (by simp [startRefresh, hlog]) (by simp [startRefresh, hlog])
      (by simp [startRefresh, hlog]) (by simp [startRefresh, hlog]) hInv
  | false =>
    exact RefreshInv_afterStart cfg s _ i cc (CallerPC.waiting i) hc hns
      (by intro h; cases h) (by intro h; cases h) (fun c h => by cases h)
      (by simp [startRefresh, hlog]) (by simp [startRefresh, hlog])
      (by simp [startRefresh, hlog]) (by simp [startRefresh, hlog]) hInv

/-- Invariant preservation for `decideRefresh` (the staleness decision that
either starts a refresh or returns the stored credentials unchanged). -/
theorem RefreshInv_decideRefresh (cfg : ModelCfg) (s : RState) (i : Nat)
    (cc : CallerCfg) (refresh : Bool)
    (hc : cfg.callers.get? i = some cc)
    (hns : s.execPC i = ExecPC.notStarted)
    (hInv : RefreshInv cfg s) : RefreshInv cfg (decideRefresh cfg cc i refresh s) := by
  obtain ⟨hT, hS, hD⟩ := hInv
  unfold decideRefresh
  by_cases hn : refreshNeeded refresh cc.creds cfg.provider.token_expiration_buffer
      cfg.now = true
  · rw [if_pos hn]
    exact RefreshInv_startRefresh cfg s i cc hc hns ⟨hT, hS, hD⟩
  · rw [if_neg hn]
    refine ⟨fun rid => ?_, fun rid h => ?_, ?_⟩
    · exact TraceInvAt_stable cfg s _ rid rfl rfl _ rfl (by simp [isExecEvent]) (hT rid)
    · by_cases hri : rid = i
      · subst hri
        rw [show (({ s with
              callerPC := updFn s.callerPC rid (CallerPC.doneOk cc.creds),
              events := s.events ++ [REvent.callerReturned rid (Except.ok cc.creds)] } :
            RState).callerPC rid) = CallerPC.doneOk cc.creds from updFn_self _ _ _] at h
        rcases h with h | h <;> cases h
      · have hpc2 : (({ s with
              callerPC := updFn s.callerPC i (CallerPC.doneOk cc.creds),
              events := s.events ++ [REvent.callerReturned i (Except.ok cc.creds)] } :
            RState).callerPC rid) = s.callerPC rid := updFn_other _ _ _ _ hri
        rw [hpc2] at h
        exact hS rid h
    · exact DoneInv_own cfg s _ i cc hc rfl (fun r => rfl) hD

/-- Rewriting a task array with the value it already holds is the identity. -/
theorem updFn_id {α : Type} (f : Nat → α) (i : Nat) : updFn f i (f i) = f := by
  funext j
  by_cases h : j = i
  · subst h; rw [updFn_self]
  · rw [updFn_other _ _ _ _ h]

/-- Invariant preservation for a step that only moves one caller's program
counter and appends events of no executor. -/
theorem RefreshInv_callerMove (cfg : ModelCfg) (s s2 : RState) (i : Nat)
    (pc2 : CallerPC)
    (hpc : s2.callerPC = updFn s.callerPC i pc2)
    (hexec : s2.execPC = s.execPC) (hcell : s2.cell = s.cell)
    (l : List REvent) (hev : s2.events = s.events ++ l)
    (hl : ∀ rid, l.filter (isExecEvent rid) = [])
    (hready : pc2 = CallerPC.ready ∨ pc2 = CallerPC.introspectWait →
      s.execPC i = ExecPC.notStarted)
    (hdone : ∀ c, pc2 = CallerPC.doneOk c →
      (∃ cc, cfg.callers.get? i = some cc ∧ c = cc.creds) ∨
      (∃ rid, s.cell rid = some (Except.ok c)))
    (hInv : RefreshInv cfg s) : RefreshInv cfg s2 := by
  obtain ⟨hT, hS, hD⟩ := hInv
  refine ⟨fun rid => TraceInvAt_stable cfg s s2 rid (by rw [hexec]) (by rw [hcell]) l
    hev (hl rid) (hT rid), fun rid h => ?_, ?_⟩
  · rw [hpc] at h
    by_cases hri : rid = i
    · subst hri
      rw [updFn_self] at h
      rw [hexec]
      exact hready h
    · rw [updFn_other _ _ _ _ hri] at h
      rw [hexec]
      exact hS rid h
  · intro j c hj
    rw [hpc] at hj
    by_cases hji : j = i
    · subst hji
      rw [updFn_self] at hj
      rcases hdone c hj with h | ⟨r, hr⟩
      · exact Or.inl h
      · exact Or.inr ⟨r, by rw [hcell]; exact hr⟩
    · rw [updFn_other _ _ _ _ hji] at hj
      rcases hD j c hj with h | ⟨r, hr⟩
      · exact Or.inl h
      · exact Or.inr ⟨r, by rw [hcell]; exact hr⟩

/-- Invariant preservation for one executor segment: the executor advances
its program counter, appends its own events in program order, and possibly
settles its cell. -/
theorem RefreshInv_execAdvance (cfg : ModelCfg) (s s2 : RState) (i : Nat)
    (cc : CallerCfg) (oldpc newpc : ExecPC)
    (cv : Option (Except RefreshErr OAuth2Creds)) (l : List REvent)
    (hc : cfg.callers.get? i = some cc)
    (hold : s.execPC i = oldpc)
    (hnotns : oldpc ≠ ExecPC.notStarted)
    (hpc : s2.callerPC = s.callerPC)
    (hexec : s2.execPC = updFn s.execPC i newpc)
    (hcell : s2.cell = updFn s.cell i cv)
    (hcv : cv = s.cell i ∨ s.cell i = none)
    (hev : s2.events = s.events ++ l)
    (htrace : execTrace cc i oldpc (s.cell i) ++ l.filter (isExecEvent i) =
      execTrace cc i newpc cv)
    (hnewfin : newpc ≠ ExecPC.finished → cv = none)
    (hlother : ∀ rid, rid ≠ i → l.filter (isExecEvent rid) = [])
    (hInv : RefreshInv cfg s) : RefreshInv cfg s2 := by
  obtain ⟨hT, hS, hD⟩ := hInv
  refine ⟨fun rid => ?_, fun rid h => ?_, ?_⟩
  · by_cases hri : rid = i
    · subst hri
      refine ⟨fun hn => ?_, fun cc2 hcc2 => ?_, fun hf => ?_⟩
      · rw [hc] at hn; cases hn
      · rw [hc] at hcc2
        cases hcc2
        have holdtr := (hT rid).2.1 cc hc
        rw [hold] at holdtr
        rw [hev, execEvents_append, hexec, updFn_self, hcell, updFn_self, holdtr]
        exact htrace
      · rw [hexec, updFn_self] at hf
        rw [hcell, updFn_self]
        exact hnewfin hf
    · exact TraceInvAt_stable cfg s s2 rid
        (by rw [hexec]; exact updFn_other _ _ _ _ hri)
        (by rw [hcell]; exact updFn_other _ _ _ _ hri) l hev (hlother rid hri) (hT rid)
  · rw [hpc] at h
    by_cases hri : rid = i
    · subst hri
      have hcontr := hS rid h
      rw [hold] at hcontr
      exact absurd hcontr.symm (Ne.symm hnotns)
    · rw [hexec, updFn_other _ _ _ _ hri]
      exact hS rid h
  · intro j c2 hj
    rw [hpc] at hj
    rcases hD j c2 hj with h | ⟨r, hr⟩
    · exact Or.inl h
    · refine Or.inr ⟨r, ?_⟩
      rw [hcell]
      by_cases hri2 : r = i
      · subst hri2
        rw [updFn_self]
        rcases hcv with hcv | hcv
        · rw [hcv]; exact hr
        · rw [hcv] at hr; cases hr
      · rw [updFn_other _ _ _ _ hri2]
        exact hr

/-- The invariant holds in the initial state. -/
theorem refreshInv_init (cfg : ModelCfg) : RefreshInv cfg (initState cfg) := by
  refine ⟨fun rid => ⟨fun _ => ⟨rfl, rfl⟩, fun cc _ => rfl, fun _ => rfl⟩,
    fun rid _ => rfl, fun i c h => ?_⟩
  cases h

/-- Every scheduler step preserves the invariant. -/
theorem refreshInv_step (cfg : ModelCfg) (s : RState) (t : Tid)
    (hInv : RefreshInv cfg s) : RefreshInv cfg (stepModel cfg s t) := by
  obtain ⟨hT, hS, hD⟩ := hInv
  cases t with
  | caller i =>
    show RefreshInv cfg (callerStep cfg i s)
    rcases hc : cfg.callers.get? i with _ | cc
    · simp only [callerStep, hc]
      exact ⟨hT, hS, hD⟩
    · rcases hpc : s.callerPC i with _ | _ | _ | rid0 | c0 | e0
      · -- segment 1: registry scan
        rcases hl : lastRunningRefresh s.registry (keyOf cc) with _ | rid0
        · -- registry has no entry for this key
          cases hinst : cc.instantRefresh with
          | true =>
            simp only [callerStep, hc, hpc, hl]
            rw [if_pos hinst]
            exact RefreshInv_decideRefresh cfg s i cc true hc (hS i (Or.inl hpc))
              ⟨hT, hS, hD⟩
          | false =>
            have hinst2 : ¬(cc.instantRefresh = true) := by
              rw [hinst]; exact Bool.false_ne_true
            cases hsi : cfg.provider.shouldIntrospect with
            | true =>
              simp only [callerStep, hc, hpc, hl]
              rw [if_neg hinst2, if_pos hsi]
              exact RefreshInv_callerMove cfg s _ i CallerPC.introspectWait rfl rfl rfl
                [] (List.append_nil _).symm (fun _ => rfl)
                (fun _ => hS i (Or.inl hpc)) (fun c h => by cases h) ⟨hT, hS, hD⟩
            | false =>
              have hsi2 : ¬(cfg.provider.shouldIntrospect = true) := by
                rw [hsi]; exact Bool.false_ne_true
              simp only [callerStep, hc, hpc, hl]
              rw [if_neg hinst2, if_neg hsi2]
              exact RefreshInv_decideRefresh cfg s i cc false hc (hS i (Or.inl hpc))
                ⟨hT, hS, hD⟩
        · -- joining the running refresh
          simp only [callerStep, hc, hpc, hl]
          exact RefreshInv_callerMove cfg s _ i (CallerPC.waiting rid0) rfl rfl rfl
            [REvent.checkFound i rid0] rfl (fun rid => by simp [isExecEvent])
            (fun h => by rcases h with h | h <;> cases h) (fun c h => by cases h)
            ⟨hT, hS, hD⟩
      · -- segment 2: resumption from introspection
        simp only [callerStep, hc, hpc]
        exact RefreshInv_decideRefresh cfg s i cc cfg.provider.introspectExpired hc
          (hS i (Or.inr hpc)) ⟨hT, hS, hD⟩
      · -- resumption from the pre-registration log writes: the line-531 push
        simp only [callerStep, hc, hpc]
        exact RefreshInv_callerMove cfg s _ i (CallerPC.waiting i) rfl rfl rfl
          [] (List.append_nil _).symm (fun _ => rfl)
          (fun h => by rcases h with h | h <;> cases h) (fun c h => by cases h)
          ⟨hT, hS, hD⟩
      · -- awaiting the shared promise
        rcases hcl : s.cell rid0 with _ | r
        · simp only [callerStep, hc, hpc, hcl]
          exact ⟨hT, hS, hD⟩
        · rcases r with e | c
          · simp only [callerStep, hc, hpc, hcl]
            exact RefreshInv_callerMove cfg s _ i (CallerPC.doneErr e) rfl rfl rfl
              [REvent.callerReturned i (Except.error e)] rfl
              (fun rid => by simp [isExecEvent])
              (fun h => by rcases h with h | h <;> cases h) (fun c2 h => by cases h)
              ⟨hT, hS, hD⟩
          · simp only [callerStep, hc, hpc, hcl]
            exact RefreshInv_callerMove cfg s _ i (CallerPC.doneOk c) rfl rfl rfl
              [REvent.callerReturned i (Except.ok c)] rfl
              (fun rid => by simp [isExecEvent])
              (fun h => by rcases h with h | h <;> cases h)
              (fun c2 h => by cases h; exact Or.inr ⟨rid0, hcl⟩) ⟨hT, hS, hD⟩
      · simp only [callerStep, hc, hpc]
        exact ⟨hT, hS, hD⟩
      · simp only [callerStep, hc, hpc]
        exact ⟨hT, hS, hD⟩
  | exec i =>
    show RefreshInv cfg (execStep cfg i s)
    rcases hc : cfg.callers.get? i with _ | cc
    · simp only [execStep, hc]
      exact ⟨hT, hS, hD⟩
    · have hnone : s.execPC i ≠ ExecPC.finished → s.cell i = none := (hT i).2.2
      rcases hep : s.execPC i with _ | _ | c | e | _
      · simp only [execStep, hc, hep]
        exact ⟨hT, hS, hD⟩
      · -- the outbound token call settles
        have hcn : s.cell i = none := hnone (by rw [hep]; intro h; cases h)
        rcases ho : cfg.refreshOutcome i with e | c
        · -- failure path, lines 495-512
          cases hlog : cc.hasActivityLog with
          | true =>
            simp only [execStep, hc, hep, ho]
            rw [if_pos hlog]
            refine RefreshInv_execAdvance cfg s _ i cc ExecPC.outboundWait
              (ExecPC.failLogWait e) (s.cell i) [REvent.entryRemoved i] hc hep
              (by intro h; cases h) rfl rfl (updFn_id _ _).symm (Or.inl rfl) rfl
              ?_ (fun _ => hcn) ?_ ⟨hT, hS, hD⟩
            · simp [execTrace, isExecEvent]
            · intro rid hri
              simp [isExecEvent, beq_eq_false_iff_ne.mpr (Ne.symm hri)]
          | false =>
            have hlog2 : ¬(cc.hasActivityLog = true) := by
              rw [hlog]; exact Bool.false_ne_true
            simp only [execStep, hc, hep, ho]
            rw [if_neg hlog2]
            refine RefreshInv_execAdvance cfg s _ i cc ExecPC.outboundWait
              ExecPC.finished (some (Except.error e))
              [REvent.entryRemoved i, REvent.rejected i e] hc hep
              (by intro h; cases h) rfl rfl rfl (Or.inr hcn)
              (by simp) ?_ (fun h => absurd rfl h) ?_ ⟨hT, hS, hD⟩
            · rw [hcn]
              simp [execTrace, isExecEvent]
            · intro rid hri
              simp [isExecEvent, beq_eq_false_iff_ne.mpr (Ne.symm hri)]
        · -- success: assign and persist (suspends at `updateConnection`)
          simp only [execStep, hc, hep, ho]
          refine RefreshInv_execAdvance cfg s _ i cc ExecPC.outboundWait
            (ExecPC.persistWait c) (s.cell i)
            [REvent.persisted i cc.environmentId c] hc hep
            (by intro h; cases h) rfl rfl (updFn_id _ _).symm (Or.inl rfl) rfl
            ?_ (fun _ => hcn) ?_ ⟨hT, hS, hD⟩
          · simp [execTrace, isExecEvent]
          · intro rid hri
            simp [isExecEvent, beq_eq_false_iff_ne.mpr (Ne.symm hri)]
      · -- the store write landed: remove the entry, resolve
        have hcn : s.cell i = none := hnone (by rw [hep]; intro h; cases h)
        simp only [execStep, hc, hep]
        refine RefreshInv_execAdvance cfg s _ i cc (ExecPC.persistWait c)
          ExecPC.finished (some (Except.ok c))
          [REvent.entryRemoved i, REvent.resolved i c] hc hep
          (by intro h; cases h) rfl rfl rfl (Or.inr hcn) (by simp)
          ?_ (fun h => absurd rfl h) ?_ ⟨hT, hS, hD⟩
        · simp [execTrace, isExecEvent]
        · intro rid hri
          simp [isExecEvent, beq_eq_false_iff_ne.mpr (Ne.symm hri)]
      · -- failure path resumption after the log writes: reject
        have hcn : s.cell i = none := hnone (by rw [hep]; intro h; cases h)
        simp only [execStep, hc, hep]
        refine RefreshInv_execAdvance cfg s _ i cc (ExecPC.failLogWait e)
          ExecPC.finished (some (Except.error e)) [REvent.rejected i e] hc hep
          (by intro h; cases h) rfl rfl rfl (Or.inr hcn) (by simp)
          ?_ (fun h => absurd rfl h) ?_ ⟨hT, hS, hD⟩
        · simp [execTrace, isExecEvent]
        · intro rid hri
          simp [isExecEvent, beq_eq_false_iff_ne.mpr (Ne.symm hri)]
      · simp only [execStep, hc, hep]
        exact ⟨hT, hS, hD⟩

/-- The invariant holds after running any schedule from the initial state. -/
theorem refreshInv_run (cfg : ModelCfg) (sched : List Tid) :
    RefreshInv cfg (runModel cfg sched) := by
  suffices h : ∀ s, RefreshInv cfg s → RefreshInv cfg (sched.foldl (stepModel cfg) s) by
    exact h (initState cfg) (refreshInv_init cfg)
  induction sched with
  | nil => exact fun s h => h
  | cons t ts ih => exact fun s h => ih (stepModel cfg s t) (refreshInv_step cfg s t h)

/-- C5: on the refresh path of `refreshOauth2CredentialsIfNeeded` the
executor's observable actions occur in program order for every configuration
and every interleaving: whenever the promise of refresh `rid` has resolved
with credentials `c`, the event trace of that refresh is exactly outbound
call, persist via `updateConnection`, registry-entry removal, resolution — so
the new credentials are persisted before the pending entry is removed, and
the entry is removed before the promise resolves to any waiter; consequently
every caller that completed with credentials other than the ones its own
connection already held received credentials that had been persisted. -/
theorem refresh_persist_order_c5 (cfg : ModelCfg) (sched : List Tid) (rid : Nat)
    (cc : CallerCfg) (c : OAuth2Creds)
    (hcc : cfg.callers.get? rid = some cc)
    (hcell : (runModel cfg sched).cell rid = some (Except.ok c)) :
    execEvents rid (runModel cfg sched).events =
      [REvent.outboundStart rid, REvent.persisted rid cc.environmentId c,
       REvent.entryRemoved rid, REvent.resolved rid c] ∧
    (∀ i c2, (runModel cfg sched).callerPC i = CallerPC.doneOk c2 →
      (∃ cc2, cfg.callers.get? i = some cc2 ∧ c2 = cc2.creds) ∨
      (∃ rid2 cc3, cfg.callers.get? rid2 = some cc3 ∧
        REvent.persisted rid2 cc3.environmentId c2 ∈ (runModel cfg sched).events)) := by
  obtain ⟨hT, hS, hD⟩ := refreshInv_run cfg sched
  have key : ∀ r c3, (runModel cfg sched).cell r = some (Except.ok c3) →
      ∃ cc3, cfg.callers.get? r = some cc3 ∧
        execEvents r (runModel cfg sched).events =
          [REvent.outboundStart r, REvent.persisted r cc3.environmentId c3,
           REvent.entryRemoved r, REvent.resolved r c3] := by
    intro r c3 hc3
    have hfin : (runModel cfg sched).execPC r = ExecPC.finished := by
      by_contra hne
      rw [(hT r).2.2 hne] at hc3
      cases hc3
    rcases hcr : cfg.callers.get? r with _ | cc3
    · have hns := ((hT r).1 hcr).1
      rw [hfin] at hns
      cases hns
    · refine ⟨cc3, rfl, ?_⟩
      have htr := (hT r).2.1 cc3 hcr
      rw [hfin, hc3] at htr
      exact htr
  constructor
  · obtain ⟨cc4, hcc4, htr⟩ := key rid c hcell
    rw [hcc] at hcc4
    cases hcc4
    exact htr
  · intro i c2 hdone
    rcases hD i c2 hdone with h | ⟨r, hr⟩
    · exact Or.inl h
    · obtain ⟨cc3, hcr, htr⟩ := key r c2 hr
      refine Or.inr ⟨r, cc3, hcr, ?_⟩
      have hmem : REvent.persisted r cc3.environmentId c2 ∈
          execEvents r (runModel cfg sched).events := by
        rw [htr]
        simp
      exact (List.mem_filter.mp hmem).1

/-- Caller of the end-to-end scenario. -/
def ccScenario : CallerCfg :=
  { connectionId := "c1", providerConfigKey := "slack", environmentId := 42,
    creds := credsScenario }

/-- Witness for C5: in the end-to-end scenario run the refresh trace is
exactly outbound call, persist, registry removal, resolution. -/
theorem refresh_persist_order_c5_witness :
    cfgScenario.callers.get? 0 = some ccScenario ∧
    (runModel cfgScenario schedScenario).cell 0 =
      some (Except.ok credsScenarioNew) ∧
    (execEvents 0 (runModel cfgScenario schedScenario).events =
      [REvent.outboundStart 0,
       REvent.persisted 0 ccScenario.environmentId credsScenarioNew,
       REvent.entryRemoved 0, REvent.resolved 0 credsScenarioNew] ∧
    (∀ i c2, (runModel cfgScenario schedScenario).callerPC i =
        CallerPC.doneOk c2 →
      (∃ cc2, cfgScenario.callers.get? i = some cc2 ∧ c2 = cc2.creds) ∨
      (∃ rid2 cc3, cfgScenario.callers.get? rid2 = some cc3 ∧
        REvent.persisted rid2 cc3.environmentId c2 ∈
          (runModel cfgScenario schedScenario).events))) :=
  ⟨rfl, by decide,
   refresh_persist_order_c5 cfgScenario schedScenario 0 ccScenario
     credsScenarioNew rfl (by decide)⟩

/-- Credentials of a provider that communicates no expiry (the GitHub shape):
refresh token present, no `expires_at`. -/
def credsNoExpiry : OAuth2Creds :=
  { access_token := "gh", refresh_token := some "ghr" }

/-- One caller holding the no-expiry credential, provider without
introspection. -/
def cfgNoExpiry : ModelCfg :=
  { callers := [ { connectionId := "c2", providerConfigKey := "github",
                   environmentId := 1, creds := credsNoExpiry } ]
    now := 0
    refreshOutcome := fun _ => Except.ok credsNewA
    store0 := fun _ => credsNoExpiry }

/-- Witness for C3: at the no-expiry credential the guard is false and the
single caller returns the stored credentials with no outbound call. -/
theorem refresh_condition_c3_witness :
    (some 900 : Option Nat) ≠ some 0 ∧
    cfgNoExpiry.callers = [{ connectionId := "c2", providerConfigKey := "github",
                             environmentId := 1, creds := credsNoExpiry }] ∧
    ((refreshNeeded (refreshFlag false false false) credsNoExpiry (some 900) 0 = true ↔
      (truthyS credsNoExpiry.refresh_token = true ∧
        (false = true ∨ ((false = true) ∧ (false = true)) ∨
         (∃ d, credsNoExpiry.expires_at = some d ∧
            isTokenExpiredJs d ((some 900 : Option Nat).getD 900) 0 = true)))) ∧
     ((runModel cfgNoExpiry [Tid.caller 0]).callerPC 0 =
        CallerPC.doneOk ({ connectionId := "c2", providerConfigKey := "github",
                           environmentId := 1,
                           creds := credsNoExpiry } : CallerCfg).creds ∧
      (runModel cfgNoExpiry [Tid.caller 0]).outbound = 0)) :=
  ⟨by decide, rfl,
   refresh_condition_c3 false false false credsNoExpiry (some 900) 0 cfgNoExpiry
     { connectionId := "c2", providerConfigKey := "github", environmentId := 1,
       creds := credsNoExpiry }
     (by decide) rfl rfl rfl rfl⟩

end Nango
